import Mathlib

set_option maxRecDepth 4000

/-!
Shallow embedding of gitsy (src/main.rs), a terminal front-end for managing
git worktrees.  The embedding covers the line-editing engine used by the
branch-name input, the workspace-path resolution and porcelain-output parsing
of the worktree gateway, the branch-synchronization check, and the screen
state machine with its four key handlers.

Rust strings are modelled as lists of characters together with explicit
UTF-8 byte arithmetic, because the source indexes strings by byte offset
(`String::insert` / `String::remove` / `String::len`) while moving the cursor
by one unit per keystroke.  Operations that can panic in Rust (char-boundary
assertions, indexing, `% 0`, unsigned underflow with debug overflow checks)
return `Option`, with `none` standing for the panic.  External effects
(spawned git commands, libgit2 lookups) are supplied by a `Gateway` record of
oracles, as suggested by the spec's own test-double note.
-/

/-- UTF-8 encoded length of a character, as Rust `char::len_utf8`. -/
def utf8Len (c : Char) : Nat :=
  if c.toNat < 0x80 then 1
  else if c.toNat < 0x800 then 2
  else if c.toNat < 0x10000 then 3
  else 4

/-- Total UTF-8 byte length of a string modelled as a character list
(Rust `String::len`). -/
def byteLen (s : List Char) : Nat := (s.map utf8Len).sum

/-- When the byte offset is a char boundary of the string
(Rust `str::is_char_boundary`), the index of the character starting there;
`none` when the offset falls strictly inside a multi-byte character or past
the end of the string. -/
def charIdxAt : List Char → Nat → Option Nat
  | _, 0 => some 0
  | [], _ => none
  | c :: cs, i => if i < utf8Len c then none else (charIdxAt cs (i - utf8Len c)).map (· + 1)

/-- Rust `String::insert(idx, c)`: `none` models the char-boundary assertion
failure (a panic) when `idx` is not a boundary or exceeds the byte length. -/
def stringInsert (s : List Char) (idx : Nat) (c : Char) : Option (List Char) :=
  (charIdxAt s idx).map (fun i => s.take i ++ c :: s.drop i)

/-- Rust `String::remove(idx)`: removes the character starting at byte offset
`idx`; `none` models the panics (offset not a boundary, or at the end). -/
def stringRemove (s : List Char) (idx : Nat) : Option (List Char) :=
  match charIdxAt s idx with
  | none => none
  | some i => if i < s.length then some (s.take i ++ s.drop (i + 1)) else none

/-- The Line Editor state: the text being edited plus the cursor byte offset
(the source keeps these as the `input` and `cursor_position` fields). -/
structure InputBuffer where
  text : List Char
  cursor : Nat
deriving DecidableEq

/-- The `KeyCode::Char(c)` arm of `handle_create_branch_key` (main.rs 159-162):
byte-offset insertion followed by a cursor increment of one. -/
def InputBuffer.insert (b : InputBuffer) (c : Char) : Option InputBuffer :=
  (stringInsert b.text b.cursor c).map (fun t => ⟨t, b.cursor + 1⟩)

/-- The `KeyCode::Backspace` arm (main.rs 163-168). -/
def InputBuffer.backspace (b : InputBuffer) : Option InputBuffer :=
  if b.cursor > 0 then
    (stringRemove b.text (b.cursor - 1)).map (fun t => ⟨t, b.cursor - 1⟩)
  else some b

/-- The `KeyCode::Delete` arm (main.rs 169-173). -/
def InputBuffer.delete_forward (b : InputBuffer) : Option InputBuffer :=
  if b.cursor < byteLen b.text then
    (stringRemove b.text b.cursor).map (fun t => ⟨t, b.cursor⟩)
  else some b

/-- The `KeyCode::Left` arm (main.rs 174-178). -/
def InputBuffer.move_left (b : InputBuffer) : InputBuffer :=
  if b.cursor > 0 then ⟨b.text, b.cursor - 1⟩ else b

/-- The `KeyCode::Right` arm (main.rs 179-183). -/
def InputBuffer.move_right (b : InputBuffer) : InputBuffer :=
  if b.cursor < byteLen b.text then ⟨b.text, b.cursor + 1⟩ else b

/-- The `KeyCode::Home` arm (main.rs 184-186). -/
def InputBuffer.move_home (b : InputBuffer) : InputBuffer :=
  ⟨b.text, 0⟩

/-- The `KeyCode::End` arm (main.rs 187-189). -/
def InputBuffer.move_end (b : InputBuffer) : InputBuffer :=
  ⟨b.text, byteLen b.text⟩

/-- Rust `str::starts_with`, at the character level (byte-prefix and
character-prefix agree for valid UTF-8). -/
def strStartsWith (s pre : String) : Bool := pre.data.isPrefixOf s.data

/-- Split a character list at `/` separators (the component scan behind
`PathBuf::from` on Unix paths). -/
def splitSlashAux : List Char → List Char → List (List Char)
  | [], acc => [acc.reverse]
  | c :: cs, acc =>
    if c = '/' then acc.reverse :: splitSlashAux cs []
    else splitSlashAux cs (c :: acc)

/-- A filesystem path, modelled as Rust `PathBuf`: a rooted/relative flag
plus the list of normal components.  `Path::starts_with` is component-wise
in Rust, which this representation captures directly. -/
structure PathBuf where
  absolute : Bool
  components : List String
deriving DecidableEq

/-- Rust `PathBuf::from` / `Path::new` on a Unix-style path string. -/
def PathBuf.ofString (s : String) : PathBuf :=
  ⟨strStartsWith s "/",
    ((splitSlashAux s.data []).map (fun l => String.mk l)).filter (fun p => p ≠ "")⟩

/-- Rust `PathBuf::join`: an absolute argument replaces the receiver,
otherwise the components are appended. -/
def PathBuf.join (p q : PathBuf) : PathBuf :=
  if q.absolute then q else ⟨p.absolute, p.components ++ q.components⟩

/-- Rust `Path::starts_with`: component-wise prefix (so a sibling directory
whose name merely extends the base as a string does not match). -/
def PathBuf.startsWith (p base : PathBuf) : Bool :=
  p.absolute == base.absolute && base.components.isPrefixOf p.components

/-- Fuel-driven worker for `trimStartMatches`. -/
def trimStartMatchesAux (pat : String) : Nat → String → String
  | 0, s => s
  | n + 1, s =>
    if pat.data.isPrefixOf s.data && pat.data.length != 0 then
      trimStartMatchesAux pat n (String.mk (s.data.drop pat.data.length))
    else s

/-- Rust `str::trim_start_matches`: repeatedly strips the pattern from the
front while it matches. -/
def trimStartMatches (s pat : String) : String :=
  trimStartMatchesAux pat s.data.length s

/-- The parsing loop of `App::load_branches` (main.rs 297-314): a
`worktree <path>` line replaces the current record path, a `branch ` line
completes the current record (emitting the trimmed branch name when the
worktree path lies under the workspace root) and resets it, and any other
line is ignored. -/
def load_branches_parse (worktree_path : PathBuf) : List String → Option PathBuf → List String
  | [], _ => []
  | line :: rest, cur =>
    if strStartsWith line "worktree " then
      load_branches_parse worktree_path rest (some (PathBuf.ofString (trimStartMatches line "worktree ")))
    else if strStartsWith line "branch " then
      match cur with
      | some wt =>
        if wt.startsWith worktree_path then
          trimStartMatches line "branch refs/heads/" :: load_branches_parse worktree_path rest none
        else
          load_branches_parse worktree_path rest none
      | none => load_branches_parse worktree_path rest none
    else
      load_branches_parse worktree_path rest cur

/-- Record extraction for the porcelain worktree list, independent of any
workspace root: each completed record is the worktree path paired with the
`branch ` line that terminated it, in encounter order; worktree lines never
followed by a `branch ` line (detached HEAD) yield no record. -/
def porcelainRecords : List String → Option PathBuf → List (PathBuf × String)
  | [], _ => []
  | line :: rest, cur =>
    if strStartsWith line "worktree " then
      porcelainRecords rest (some (PathBuf.ofString (trimStartMatches line "worktree ")))
    else if strStartsWith line "branch " then
      match cur with
      | some wt => (wt, line) :: porcelainRecords rest none
      | none => porcelainRecords rest none
    else
      porcelainRecords rest cur

/-- Error classes of the embedded libgit2 layer: `notFound` is the
"no upstream configured" lookup failure, `other` any different failure. -/
inductive GitErr
  | notFound
  | other (msg : String)
deriving DecidableEq

/-- Display text of a git-layer error, as carried into `anyhow::Error`. -/
def GitErr.message : GitErr → String
  | .notFound => "branch or upstream not found"
  | .other m => m

/-- A branch reference resolved as an upstream: its commit pointer, when the
reference has a direct target. -/
structure UpstreamBranch where
  target : Option Nat
deriving DecidableEq

/-- A local branch as seen through `Repository::find_branch`: its commit
pointer and the outcome of `Branch::upstream`. -/
structure LocalBranch where
  target : Option Nat
  upstream : Except GitErr UpstreamBranch

/-- The repository state consulted by `is_branch_in_sync`: the
`find_branch(name, BranchType::Local)` lookup. -/
structure GitRepo where
  find_branch : String → Except GitErr LocalBranch

/-- App::is_branch_in_sync (main.rs 320-340): resolve the local branch and its
commit pointer, treat every `upstream()` failure as "in sync", otherwise
compare commit pointers. -/
def is_branch_in_sync (repo : GitRepo) (branch_name : String) : Except GitErr Bool :=
  match repo.find_branch branch_name with
  | .error e => .error e
  | .ok local_branch =>
    match local_branch.target with
    | none => .error (.other "Failed to get local branch target")
    | some local_oid =>
      match local_branch.upstream with
      | .error _ => .ok true
      | .ok up =>
        match up.target with
        | none => .error (.other "Failed to get upstream branch target")
        | some upstream_oid => .ok (local_oid == upstream_oid)

/-- Modelled from the spec (section 4.2 `is_in_sync`): the sync check as the
spec words it — only the absence of an upstream yields `true`; an upstream
lookup failure for any other reason is an error, not a `true` result.  Used
solely to compare the spec's words against `is_branch_in_sync`. -/
def is_in_sync_spec (repo : GitRepo) (branch_name : String) : Except GitErr Bool :=
  match repo.find_branch branch_name with
  | .error e => .error e
  | .ok local_branch =>
    match local_branch.target with
    | none => .error (.other "Failed to get local branch target")
    | some local_oid =>
      match local_branch.upstream with
      | .error .notFound => .ok true
      | .error e => .error e
      | .ok up =>
        match up.target with
        | none => .error (.other "Failed to get upstream branch target")
        | some upstream_oid => .ok (local_oid == upstream_oid)

/-- The active screen (main.rs `enum Screen`). -/
inductive Screen
  | MainMenu
  | CreateBranch
  | DeleteBranch
  | ConfirmDelete
deriving DecidableEq

/-- The key codes the application reacts to (the relevant subset of
crossterm's `KeyCode`; `endKey` stands for `KeyCode::End`). -/
inductive KeyCode
  | enter
  | esc
  | up
  | down
  | left
  | right
  | home
  | endKey
  | backspace
  | delete
  | char (c : Char)
deriving DecidableEq

/-- The main-menu widget state (main.rs `struct MainMenu`). -/
structure MainMenu where
  selected : Nat
  items : List String
deriving DecidableEq

/-- MainMenu::new (main.rs 43-48). -/
def MainMenu.new : MainMenu :=
  ⟨0, ["Create new branch", "Delete a branch", "Exit"]⟩

/-- MainMenu::next (main.rs 50-52): cyclic increment.  `none` models the
panic of `% 0` on an empty item list. -/
def MainMenu.next (m : MainMenu) : Option MainMenu :=
  match m.items.length with
  | 0 => none
  | n + 1 => some { m with selected := (m.selected + 1) % (n + 1) }

/-- MainMenu::previous (main.rs 54-60): cyclic decrement.  `none` models the
unsigned-underflow panic of `len - 1` on an empty item list. -/
def MainMenu.previous (m : MainMenu) : Option MainMenu :=
  if m.selected > 0 then some { m with selected := m.selected - 1 }
  else
    match m.items.length with
    | 0 => none
    | n + 1 => some { m with selected := n }

/-- The configuration file contents (main.rs `struct GitsyConfig`). -/
structure GitsyConfig where
  worktree_path : String
deriving DecidableEq

/-- The application state (main.rs `struct App`). -/
structure App where
  screen : Screen
  main_menu : MainMenu
  input : List Char
  cursor_position : Nat
  repo_root : PathBuf
  config : GitsyConfig
  branches : List String
  selected_branch : Nat
  message : Option String
  confirm_delete : Bool
  branch_out_of_sync : Bool
deriving DecidableEq

/-- App::new (main.rs 78-92). -/
def App.new (repo_root : PathBuf) (config : GitsyConfig) : App :=
  { screen := Screen.MainMenu
    main_menu := MainMenu.new
    input := []
    cursor_position := 0
    repo_root := repo_root
    config := config
    branches := []
    selected_branch := 0
    message := none
    confirm_delete := false
    branch_out_of_sync := false }

/-- The external world consulted by the handlers: the spawned `git worktree`
commands (`create`/`remove` take the branch name and the full worktree path
the source passes on the command line, `listPorcelain` is the parsed stdout
line list of `git worktree list --porcelain` or the failure message) and the
libgit2 repository used by the sync check. -/
structure Gateway where
  create : String → PathBuf → Except String Unit
  listPorcelain : Except String (List String)
  remove : String → PathBuf → Except String Unit
  repo : GitRepo

/-- Workspace-root resolution as written inline in `App::create_worktree`
(main.rs 252-256). -/
def create_worktree_root (app : App) : PathBuf :=
  if (PathBuf.ofString app.config.worktree_path).absolute then
    PathBuf.ofString app.config.worktree_path
  else
    app.repo_root.join (PathBuf.ofString app.config.worktree_path)

/-- Workspace-root resolution as written inline in `App::load_branches`
(main.rs 291-295). -/
def load_branches_root (app : App) : PathBuf :=
  if (PathBuf.ofString app.config.worktree_path).absolute then
    PathBuf.ofString app.config.worktree_path
  else
    app.repo_root.join (PathBuf.ofString app.config.worktree_path)

/-- Workspace-root resolution as written inline in `App::delete_worktree`
(main.rs 343-347). -/
def delete_worktree_root (app : App) : PathBuf :=
  if (PathBuf.ofString app.config.worktree_path).absolute then
    PathBuf.ofString app.config.worktree_path
  else
    app.repo_root.join (PathBuf.ofString app.config.worktree_path)

/-- Modelled from the spec (section 4.4 path resolution rule, shared by all
three gateway operations): the workspace root is the configured path as given
when it is absolute, else the configured path resolved relative to the
repository root. -/
def workspace_root_rule (app : App) : PathBuf :=
  if (PathBuf.ofString app.config.worktree_path).absolute then
    PathBuf.ofString app.config.worktree_path
  else
    app.repo_root.join (PathBuf.ofString app.config.worktree_path)

/-- App::create_worktree (main.rs 251-276): runs
`git worktree add -b <input> <root>/<input>` through the command oracle. -/
def create_worktree (g : Gateway) (app : App) : Except String Unit :=
  g.create (String.mk app.input)
    ((create_worktree_root app).join (PathBuf.ofString (String.mk app.input)))

/-- App::delete_worktree (main.rs 342-365): runs
`git worktree remove <root>/<branch>` through the command oracle. -/
def delete_worktree (g : Gateway) (app : App) (branch_name : String) : Except String Unit :=
  g.remove branch_name
    ((delete_worktree_root app).join (PathBuf.ofString branch_name))

/-- App::load_branches (main.rs 278-318): list worktrees through the command
oracle and keep the branch names parsed under the workspace root. -/
def load_branches (g : Gateway) (app : App) : Except String App :=
  match g.listPorcelain with
  | .error e => .error e
  | .ok lines =>
    .ok { app with branches := load_branches_parse (load_branches_root app) lines none }

/-- App::handle_main_menu_key (main.rs 103-134).  The result is
`none` for a panic, `some (.error e)` when the handler propagates a gateway
error with `?`, and `some (.ok (quit, app'))` otherwise. -/
def handle_main_menu_key (g : Gateway) (app : App) (k : KeyCode) :
    Option (Except String (Bool × App)) :=
  match k with
  | .up =>
    match app.main_menu.previous with
    | none => none
    | some m => some (.ok (false, { app with main_menu := m }))
  | .down =>
    match app.main_menu.next with
    | none => none
    | some m => some (.ok (false, { app with main_menu := m }))
  | .char c =>
    -- the source's or-patterns `Up | Char('k')` and `Down | Char('j')`,
    -- split into their constructors
    if c = 'k' then
      match app.main_menu.previous with
      | none => none
      | some m => some (.ok (false, { app with main_menu := m }))
    else if c = 'j' then
      match app.main_menu.next with
      | none => none
      | some m => some (.ok (false, { app with main_menu := m }))
    else some (.ok (false, app))
  | .enter =>
    match app.main_menu.selected with
    | 0 => some (.ok (false, { app with
        screen := Screen.CreateBranch, input := [], cursor_position := 0, message := none }))
    | 1 =>
      match load_branches g app with
      | .error e => some (.error e)
      | .ok app1 =>
        if app1.branches.isEmpty then
          some (.ok (false, { app1 with message := some "No branches with worktrees found" }))
        else
          some (.ok (false, { app1 with
            screen := Screen.DeleteBranch, selected_branch := 0, message := none }))
    | 2 => some (.ok (true, app))
    | _ => some (.ok (false, app))
  | _ => some (.ok (false, app))

/-- App::handle_create_branch_key (main.rs 136-193). -/
def handle_create_branch_key (g : Gateway) (app : App) (k : KeyCode) :
    Option (Except String (Bool × App)) :=
  match k with
  | .esc => some (.ok (false, { app with screen := Screen.MainMenu, message := none }))
  | .enter =>
    if app.input.isEmpty then some (.ok (false, app))
    else
      match create_worktree g app with
      | .ok _ => some (.ok (false, { app with
          message := some ("Successfully created worktree for branch '" ++ String.mk app.input ++ "'"),
          input := [], cursor_position := 0 }))
      | .error e => some (.ok (false, { app with message := some ("Error: " ++ e) }))
  | .char c =>
    match InputBuffer.insert ⟨app.input, app.cursor_position⟩ c with
    | none => none
    | some b => some (.ok (false, { app with input := b.text, cursor_position := b.cursor }))
  | .backspace =>
    match InputBuffer.backspace ⟨app.input, app.cursor_position⟩ with
    | none => none
    | some b => some (.ok (false, { app with input := b.text, cursor_position := b.cursor }))
  | .delete =>
    match InputBuffer.delete_forward ⟨app.input, app.cursor_position⟩ with
    | none => none
    | some b => some (.ok (false, { app with input := b.text, cursor_position := b.cursor }))
  | .left =>
    let b := InputBuffer.move_left ⟨app.input, app.cursor_position⟩
    some (.ok (false, { app with input := b.text, cursor_position := b.cursor }))
  | .right =>
    let b := InputBuffer.move_right ⟨app.input, app.cursor_position⟩
    some (.ok (false, { app with input := b.text, cursor_position := b.cursor }))
  | .home =>
    let b := InputBuffer.move_home ⟨app.input, app.cursor_position⟩
    some (.ok (false, { app with input := b.text, cursor_position := b.cursor }))
  | .endKey =>
    let b := InputBuffer.move_end ⟨app.input, app.cursor_position⟩
    some (.ok (false, { app with input := b.text, cursor_position := b.cursor }))
  | _ => some (.ok (false, app))

/-- App::handle_delete_branch_key (main.rs 195-220).  The cyclic selection
moves panic on an empty branch list (`len - 1` underflow, `% 0`); the Enter
arm indexes `branches[selected_branch]` and propagates any
`is_branch_in_sync` error with `?`. -/
def handle_delete_branch_key (g : Gateway) (app : App) (k : KeyCode) :
    Option (Except String (Bool × App)) :=
  match k with
  | .esc => some (.ok (false, { app with screen := Screen.MainMenu, message := none }))
  | .up =>
    if app.selected_branch > 0 then
      some (.ok (false, { app with selected_branch := app.selected_branch - 1 }))
    else
      match app.branches.length with
      | 0 => none
      | n + 1 => some (.ok (false, { app with selected_branch := n }))
  | .down =>
    match app.branches.length with
    | 0 => none
    | n + 1 => some (.ok (false, { app with selected_branch := (app.selected_branch + 1) % (n + 1) }))
  | .char c =>
    -- the source's or-patterns `Up | Char('k')` and `Down | Char('j')`,
    -- split into their constructors
    if c = 'k' then
      if app.selected_branch > 0 then
        some (.ok (false, { app with selected_branch := app.selected_branch - 1 }))
      else
        match app.branches.length with
        | 0 => none
        | n + 1 => some (.ok (false, { app with selected_branch := n }))
    else if c = 'j' then
      match app.branches.length with
      | 0 => none
      | n + 1 => some (.ok (false, { app with selected_branch := (app.selected_branch + 1) % (n + 1) }))
    else some (.ok (false, app))
  | .enter =>
    match app.branches[app.selected_branch]? with
    | none => none
    | some branch_name =>
      match is_branch_in_sync g.repo branch_name with
      | .error e => some (.error (GitErr.message e))
      | .ok b => some (.ok (false, { app with
          branch_out_of_sync := !b, screen := Screen.ConfirmDelete, confirm_delete := false }))
  | _ => some (.ok (false, app))

/-- App::handle_confirm_delete_key (main.rs 222-249). -/
def handle_confirm_delete_key (g : Gateway) (app : App) (k : KeyCode) :
    Option (Except String (Bool × App)) :=
  match k with
  | .esc => some (.ok (false, { app with screen := Screen.DeleteBranch }))
  | .char c =>
    -- the source's or-patterns `Char('y') | Char('Y')` and `Char('n') | Char('N')`
    if c = 'y' ∨ c = 'Y' then
      match app.branches[app.selected_branch]? with
      | none => none
      | some branch_name =>
        match delete_worktree g app branch_name with
        | .ok _ => some (.ok (false, { app with
            message := some ("Successfully deleted worktree for branch '" ++ branch_name ++ "'"),
            screen := Screen.MainMenu }))
        | .error e => some (.ok (false, { app with
            message := some ("Error: " ++ e), screen := Screen.MainMenu }))
    else if c = 'n' ∨ c = 'N' then some (.ok (false, { app with screen := Screen.DeleteBranch }))
    else some (.ok (false, app))
  | _ => some (.ok (false, app))

/-- App::handle_key_event (main.rs 94-101): dispatch on the active screen. -/
def handle_key_event (g : Gateway) (app : App) (k : KeyCode) :
    Option (Except String (Bool × App)) :=
  match app.screen with
  | .MainMenu => handle_main_menu_key g app k
  | .CreateBranch => handle_create_branch_key g app k
  | .DeleteBranch => handle_delete_branch_key g app k
  | .ConfirmDelete => handle_confirm_delete_key g app k

/-- The states the interactive loop of `run_app` (main.rs 578-765) can be in:
the initial state, plus every state produced by a key event whose handler
returned without a panic and without propagating an error. -/
inductive Reachable (root : PathBuf) (cfg : GitsyConfig) : App → Prop
  | init : Reachable root cfg (App.new root cfg)
  | step {a : App} (g : Gateway) (k : KeyCode) {b : Bool} {a' : App} :
      Reachable root cfg a →
      handle_key_event g a k = some (Except.ok (b, a')) →
      Reachable root cfg a'

/-- The delete-flow indexing invariant: whenever the DeleteBranch or
ConfirmDelete screen is active, the branch list is non-empty and the
selection is in bounds. -/
def DeleteInv (a : App) : Prop :=
  a.screen = Screen.DeleteBranch ∨ a.screen = Screen.ConfirmDelete →
    a.branches ≠ [] ∧ a.selected_branch < a.branches.length

/-- A gateway whose every external call succeeds trivially: commands succeed,
the worktree list is empty, branch lookups fail (unused by the fixtures that
carry it only as plumbing). -/
def okGateway : Gateway :=
  ⟨fun _ _ => .ok (), .ok [], fun _ _ => .ok (), ⟨fun _ => .error .notFound⟩⟩

/-- Fixture for C2: a gateway whose worktree listing fails, as when
`git worktree list` exits nonzero (main.rs 287-289). -/
def c2Gateway : Gateway :=
  { okGateway with listPorcelain := .error "Failed to list worktrees" }

/-- Fixture for C2: the application on the main menu with "Delete a branch"
selected. -/
def c2App : App :=
  { App.new (PathBuf.ofString "/repo") ⟨"worktrees"⟩ with
    main_menu := { MainMenu.new with selected := 1 } }

/-- Fixture for C3: a local branch with a commit pointer whose upstream
lookup fails for a reason other than a missing upstream. -/
def c3LB : LocalBranch :=
  ⟨some 1, .error (.other "upstream lookup failed: invalid branch configuration")⟩

/-- Fixture for C3: a repository resolving every branch to `c3LB`. -/
def c3Repo : GitRepo := ⟨fun _ => .ok c3LB⟩

/-- Fixture for C4: the resolved workspace root. -/
def c4Root : PathBuf := PathBuf.ofString "/ws"

/-- Fixture for C4: a porcelain listing with a record outside the workspace
root, one inside it, a detached record (no branch line), and a record under a
sibling directory of the workspace root. -/
def c4Lines : List String :=
  ["worktree /repo", "branch refs/heads/main",
   "worktree /ws/feat", "branch refs/heads/feat",
   "worktree /ws/detached",
   "worktree /ws2/other", "branch refs/heads/other"]

/-- Fixture for C5: the application on the confirmation screen with branch
"old-feature" selected. -/
def c5App : App :=
  { App.new (PathBuf.ofString "/repo") ⟨"worktrees"⟩ with
    screen := Screen.ConfirmDelete, branches := ["old-feature"], selected_branch := 0 }

/-- Fixture for C5: a gateway whose remove command cannot be spawned, the
source's own context message for that failure (main.rs 357). -/
def c5Gateway : Gateway :=
  { okGateway with remove := fun _ _ => .error "Failed to execute git worktree remove" }

/-- Fixture for C6: the CreateBranch screen with "feature-x" typed in. -/
def c6App : App :=
  { App.new (PathBuf.ofString "/repo") ⟨"worktrees"⟩ with
    screen := Screen.CreateBranch,
    input := "feature-x".data, cursor_position := 9 }

/-- Fixture for C7: the main menu with "Delete a branch" selected, paired
below with a gateway returning an empty worktree listing. -/
def c7App : App :=
  { App.new (PathBuf.ofString "/repo") ⟨"worktrees"⟩ with
    main_menu := { MainMenu.new with selected := 1 } }

/-- Fixture for C8: a two-item menu with the first item selected. -/
def c8Menu : MainMenu := ⟨0, ["a", "b"]⟩

/-- Fixture for C10: the repository root. -/
def c10Root : PathBuf := PathBuf.ofString "/repo"

/-- Fixture for C10: an absolute workspace path. -/
def c10Cfg : GitsyConfig := ⟨"/ws"⟩

/-- Fixture for C10: a gateway listing one worktree under the workspace. -/
def c10Gate : Gateway :=
  { okGateway with listPorcelain := .ok ["worktree /ws/feat", "branch refs/heads/feat"] }

/-- Fixture for C10: the state after pressing Down on the fresh main menu. -/
def c10A1 : App :=
  { App.new c10Root c10Cfg with main_menu := { MainMenu.new with selected := 1 } }

/-- Fixture for C10: the state after then pressing Enter, which loads the
branch list and enters the DeleteBranch screen. -/
def c10A2 : App :=
  { c10A1 with screen := Screen.DeleteBranch, branches := ["feat"], selected_branch := 0 }

/-- Whether `needle` occurs as a contiguous substring of `hay` (used only to
state that a status message does or does not reference a branch name). -/
def listContains (hay needle : List Char) : Bool :=
  (List.range (hay.length + 1)).any (fun i => needle.isPrefixOf (hay.drop i))

/-- C1: the Line Editor does not keep its cursor invariant for multi-byte
characters and can panic.  Inserting 'é' (a 2-byte character) into an empty
buffer succeeds and leaves the byte cursor at 1, strictly inside the
character's UTF-8 encoding; the next insertion then calls `String::insert`
at a non-boundary byte index, which panics (modelled as `none`), because the
handler advances `cursor_position` by one per keystroke while the string is
indexed by bytes. -/
theorem c1_multibyte_insert_panics :
    InputBuffer.insert ⟨[], 0⟩ 'é' = some ⟨['é'], 1⟩ ∧
    InputBuffer.insert ⟨['é'], 1⟩ 'a' = none := ⟨rfl, rfl⟩

/-- C3 counterexample: when the upstream lookup fails for a reason other
than a missing upstream, `is_branch_in_sync` returns `Ok(true)` (its
`Err(_)` arm catches every error), while the claim requires an error; the
claim's own reading of the check, `is_in_sync_spec`, disagrees with the code
on this input. -/
theorem c3_counterexample :
    is_branch_in_sync c3Repo "feature" = Except.ok true ∧
    is_in_sync_spec c3Repo "feature" =
      Except.error (GitErr.other "upstream lookup failed: invalid branch configuration") :=
  ⟨rfl, rfl⟩

/-- C3 as amended: `is_branch_in_sync` propagates a failed local-branch
lookup; given a resolved local commit pointer it returns `Ok(true)` whenever
the upstream lookup fails — for any reason, not only the absence of an
upstream — returns the pointer comparison when the upstream resolves with a
target, and errors when either resolved branch lacks a commit target. -/
theorem c3_amended :
    (∀ (repo : GitRepo) (name : String) (e : GitErr),
      repo.find_branch name = Except.error e →
      is_branch_in_sync repo name = Except.error e) ∧
    (∀ (repo : GitRepo) (name : String) (lb : LocalBranch) (o : Nat) (e : GitErr),
      repo.find_branch name = Except.ok lb → lb.target = some o →
      lb.upstream = Except.error e →
      is_branch_in_sync repo name = Except.ok true) ∧
    (∀ (repo : GitRepo) (name : String) (lb : LocalBranch) (o u : Nat) (up : UpstreamBranch),
      repo.find_branch name = Except.ok lb → lb.target = some o →
      lb.upstream = Except.ok up → up.target = some u →
      is_branch_in_sync repo name = Except.ok (o == u)) ∧
    (∀ (repo : GitRepo) (name : String) (lb : LocalBranch),
      repo.find_branch name = Except.ok lb → lb.target = none →
      is_branch_in_sync repo name = Except.error (GitErr.other "Failed to get local branch target")) ∧
    (∀ (repo : GitRepo) (name : String) (lb : LocalBranch) (o : Nat) (up : UpstreamBranch),
      repo.find_branch name = Except.ok lb → lb.target = some o →
      lb.upstream = Except.ok up → up.target = none →
      is_branch_in_sync repo name = Except.error (GitErr.other "Failed to get upstream branch target")) := by
  refine ⟨?_, ?_, ?_, ?_, ?_⟩
  · intro repo name e h
    simp [is_branch_in_sync, h]
  · intro repo name lb o e hf ht hu
    simp [is_branch_in_sync, hf, ht, hu]
  · intro repo name lb o u up hf ht hu hut
    simp [is_branch_in_sync, hf, ht, hu, hut]
  · intro repo name lb hf ht
    simp [is_branch_in_sync, hf, ht]
  · intro repo name lb o up hf ht hu hut
    simp [is_branch_in_sync, hf, ht, hu, hut]

/-- Witness for the amended C3 at a concrete repository: the fixture's
upstream lookup fails with an `other` error and the check still answers
`Ok(true)`. -/
theorem c3_amended_witness :
    is_branch_in_sync c3Repo "feature" = Except.ok true :=
  c3_amended.2.1 c3Repo "feature" c3LB 1
    (GitErr.other "upstream lookup failed: invalid branch configuration") rfl rfl rfl

/-- C9: the three gateway operations resolve the workspace root identically,
and each agrees with the spec's rule — the configured `worktree_path` as
given when absolute, else that path joined onto the repository root. -/
theorem c9_shared_root_rule (app : App) :
    create_worktree_root app = workspace_root_rule app ∧
    load_branches_root app = workspace_root_rule app ∧
    delete_worktree_root app = workspace_root_rule app :=
  ⟨rfl, rfl, rfl⟩

/-- C8: on a non-empty item list with an in-bounds selection, `previous`
followed by `next` — and `next` followed by `previous` — restores the
original menu state. -/
theorem c8_menu_cycle (m : MainMenu) (hne : 0 < m.items.length)
    (hsel : m.selected < m.items.length) :
    m.previous.bind MainMenu.next = some m ∧ m.next.bind MainMenu.previous = some m := by
  obtain ⟨s, items⟩ := m
  cases items with
  | nil => simp at hne
  | cons x xs =>
    simp only [List.length_cons] at hsel
    constructor
    · rcases Nat.eq_zero_or_pos s with hs | hs
      · subst hs
        simp [MainMenu.previous, MainMenu.next]
      · have h1 : s - 1 + 1 = s := Nat.succ_pred_eq_of_pos hs
        simp [MainMenu.previous, MainMenu.next, hs, h1, Nat.mod_eq_of_lt hsel]
    · rcases Nat.lt_or_ge (s + 1) (xs.length + 1) with hlt | hge
      · have h2 : (s + 1) % (xs.length + 1) = s + 1 := Nat.mod_eq_of_lt hlt
        simp [MainMenu.next, MainMenu.previous, h2]
      · have heq : s + 1 = xs.length + 1 := Nat.le_antisymm (Nat.succ_le_of_lt hsel) hge
        have h2 : (s + 1) % (xs.length + 1) = 0 := by rw [heq]; exact Nat.mod_self _
        simp only [MainMenu.next, MainMenu.previous, List.length_cons, h2, Option.bind_some]
        simp
        omega

/-- Witness for C8 on a concrete two-item menu. -/
theorem c8_menu_cycle_witness :
    c8Menu.previous.bind MainMenu.next = some c8Menu ∧
    c8Menu.next.bind MainMenu.previous = some c8Menu :=
  c8_menu_cycle c8Menu (by decide) (by decide)

/-- C2 counterexample: with the main menu on "Delete a branch", a failing
worktree listing is not converted to a status message — the `?` in
`handle_main_menu_key` (main.rs 119) hands the error back to the event loop
of `run_app`, whose own `?` (main.rs 757) terminates it. -/
theorem c2_counterexample :
    handle_key_event c2Gateway c2App KeyCode.enter =
      some (Except.error "Failed to list worktrees") := rfl

/-- C2 as amended: errors of the `create` and `remove` gateway calls are
caught inside their screen handlers and turned into status messages — those
handlers never surface an error — but errors of the worktree listing
(MainMenu, Enter on selection 1) and of the sync check (DeleteBranch, Enter)
are returned by the issuing handler to the event loop, which terminates. -/
theorem c2_amended :
    (∀ (g : Gateway) (app : App) (k : KeyCode) (e : String),
      handle_create_branch_key g app k ≠ some (Except.error e)) ∧
    (∀ (g : Gateway) (app : App) (k : KeyCode) (e : String),
      handle_confirm_delete_key g app k ≠ some (Except.error e)) ∧
    (∀ (g : Gateway) (app : App) (e : String),
      app.main_menu.selected = 1 → g.listPorcelain = Except.error e →
      handle_main_menu_key g app KeyCode.enter = some (Except.error e)) ∧
    (∀ (g : Gateway) (app : App) (name : String) (e : GitErr),
      app.branches[app.selected_branch]? = some name →
      is_branch_in_sync g.repo name = Except.error e →
      handle_delete_branch_key g app KeyCode.enter =
        some (Except.error (GitErr.message e))) := by
  refine ⟨?_, ?_, ?_, ?_⟩
  · intro g app k e h
    cases k <;> simp only [handle_create_branch_key] at h
    case enter =>
      rcases hc : create_worktree g app with e0 | u <;>
        simp only [hc] at h <;> split at h <;> simp_all
    case char c =>
      rcases hins : InputBuffer.insert ⟨app.input, app.cursor_position⟩ c with _ | b <;>
        simp only [hins] at h <;> simp_all
    case backspace =>
      rcases hb : InputBuffer.backspace ⟨app.input, app.cursor_position⟩ with _ | b <;>
        simp only [hb] at h <;> simp_all
    case delete =>
      rcases hd : InputBuffer.delete_forward ⟨app.input, app.cursor_position⟩ with _ | b <;>
        simp only [hd] at h <;> simp_all
    all_goals simp_all
  · intro g app k e h
    cases k <;> simp only [handle_confirm_delete_key] at h
    case char c =>
      by_cases hy : c = 'y' ∨ c = 'Y'
      · rw [if_pos hy] at h
        rcases hb : app.branches[app.selected_branch]? with _ | name <;>
          simp only [hb] at h
        · simp_all
        · rcases hdel : delete_worktree g app name with e0 | u <;>
            simp only [hdel] at h <;> simp_all
      · rw [if_neg hy] at h
        split at h <;> simp_all
    all_goals simp_all
  · intro g app e hsel hl
    simp [handle_main_menu_key, hsel, load_branches, hl]
  · intro g app name e hsel hsync
    simp [handle_delete_branch_key, hsel, hsync]

/-- Witness for the amended C2: the concrete listing failure of `c2Gateway`
is propagated verbatim by the main-menu handler. -/
theorem c2_amended_witness :
    handle_main_menu_key c2Gateway c2App KeyCode.enter =
      some (Except.error "Failed to list worktrees") :=
  c2_amended.2.2.1 c2Gateway c2App "Failed to list worktrees" rfl rfl

/-- C5 counterexample: confirming the deletion of "old-feature" while the
remove command fails to spawn yields the status message
"Error: Failed to execute git worktree remove", which does not reference the
selected branch's name, contrary to the claim that the message references it
on failure as well. -/
theorem c5_counterexample :
    handle_key_event c5Gateway c5App (KeyCode.char 'y') =
      some (Except.ok (false, { c5App with
        message := some "Error: Failed to execute git worktree remove",
        screen := Screen.MainMenu })) ∧
    listContains "Error: Failed to execute git worktree remove".data "old-feature".data = false :=
  ⟨rfl, by decide⟩

/-- C5 as amended: in ConfirmDelete, 'y' or 'Y' invokes `remove` for the
selected branch and moves to MainMenu in both outcomes; on success the status
message contains the branch name, while on failure it is "Error: " followed
by the gateway's error text, which need not mention the branch name. -/
theorem c5_amended (g : Gateway) (app : App) (c : Char) (branch_name : String)
    (hscr : app.screen = Screen.ConfirmDelete)
    (hkey : c = 'y' ∨ c = 'Y')
    (hsel : app.branches[app.selected_branch]? = some branch_name) :
    ∃ app', handle_key_event g app (KeyCode.char c) = some (Except.ok (false, app')) ∧
      app'.screen = Screen.MainMenu ∧
      app'.branches = app.branches ∧
      app'.selected_branch = app.selected_branch ∧
      (delete_worktree g app branch_name = Except.ok () →
        app'.message = some ("Successfully deleted worktree for branch '" ++ branch_name ++ "'")) ∧
      (∀ e, delete_worktree g app branch_name = Except.error e →
        app'.message = some ("Error: " ++ e)) := by
  rcases hdel : delete_worktree g app branch_name with e0 | u
  case error =>
    refine ⟨{ app with
        message := some ("Error: " ++ e0), screen := Screen.MainMenu },
        ?_, rfl, rfl, rfl, ?_, ?_⟩
    · simp [handle_key_event, hscr, handle_confirm_delete_key, hkey, hsel, hdel]
    · intro hok
      exact absurd hok (by simp)
    · intro e he
      simp only [Except.error.injEq] at he
      subst he
      rfl
  case ok =>
    cases u
    refine ⟨{ app with
        message := some ("Successfully deleted worktree for branch '" ++ branch_name ++ "'"),
        screen := Screen.MainMenu }, ?_, rfl, rfl, rfl, fun _ => rfl, ?_⟩
    · simp [handle_key_event, hscr, handle_confirm_delete_key, hkey, hsel, hdel]
    · intro e he
      exact absurd he (by simp)

/-- Witness for the amended C5 on the concrete fixture whose remove command
fails to spawn. -/
theorem c5_amended_witness :
    ∃ app', handle_key_event c5Gateway c5App (KeyCode.char 'y') =
        some (Except.ok (false, app')) ∧
      app'.screen = Screen.MainMenu ∧
      app'.branches = c5App.branches ∧
      app'.selected_branch = c5App.selected_branch ∧
      (delete_worktree c5Gateway c5App "old-feature" = Except.ok () →
        app'.message = some ("Successfully deleted worktree for branch '" ++ "old-feature" ++ "'")) ∧
      (∀ e, delete_worktree c5Gateway c5App "old-feature" = Except.error e →
        app'.message = some ("Error: " ++ e)) :=
  c5_amended c5Gateway c5App 'y' "old-feature" rfl (Or.inl rfl) rfl

/-- C6: on CreateBranch, Enter with non-empty input calls `create`; on
success the status message contains the entered name and the buffer and
cursor are cleared, on failure the message is the error text and the buffer
and cursor are untouched; the screen stays CreateBranch in both outcomes. -/
theorem c6_create_enter (g : Gateway) (app : App)
    (hscr : app.screen = Screen.CreateBranch) (hne : app.input ≠ []) :
    ∃ app', handle_key_event g app KeyCode.enter = some (Except.ok (false, app')) ∧
      app'.screen = Screen.CreateBranch ∧
      (create_worktree g app = Except.ok () →
        app'.message = some ("Successfully created worktree for branch '" ++ String.mk app.input ++ "'") ∧
        app'.input = [] ∧ app'.cursor_position = 0) ∧
      (∀ e, create_worktree g app = Except.error e →
        app'.message = some ("Error: " ++ e) ∧
        app'.input = app.input ∧ app'.cursor_position = app.cursor_position) := by
  have hne' : app.input.isEmpty = false := by
    cases hi : app.input with
    | nil => exact absurd hi hne
    | cons a l => rfl
  rcases hc : create_worktree g app with e0 | u
  case error =>
    refine ⟨{ app with message := some ("Error: " ++ e0) }, ?_, hscr, ?_, ?_⟩
    · simp [handle_key_event, hscr, handle_create_branch_key, hne', hc]
    · intro hok
      exact absurd hok (by simp)
    · intro e he
      simp only [Except.error.injEq] at he
      subst he
      exact ⟨rfl, rfl, rfl⟩
  case ok =>
    cases u
    refine ⟨{ app with
        message := some ("Successfully created worktree for branch '" ++ String.mk app.input ++ "'"),
        input := [], cursor_position := 0 }, ?_, hscr, fun _ => ⟨rfl, rfl, rfl⟩, ?_⟩
    · simp [handle_key_event, hscr, handle_create_branch_key, hne', hc]
    · intro e he
      exact absurd he (by simp)

/-- Witness for C6: typing "feature-x" and pressing Enter against a gateway
whose create succeeds. -/
theorem c6_create_enter_witness :
    ∃ app', handle_key_event okGateway c6App KeyCode.enter = some (Except.ok (false, app')) ∧
      app'.screen = Screen.CreateBranch ∧
      (create_worktree okGateway c6App = Except.ok () →
        app'.message = some ("Successfully created worktree for branch '" ++ String.mk c6App.input ++ "'") ∧
        app'.input = [] ∧ app'.cursor_position = 0) ∧
      (∀ e, create_worktree okGateway c6App = Except.error e →
        app'.message = some ("Error: " ++ e) ∧
        app'.input = c6App.input ∧ app'.cursor_position = c6App.cursor_position) :=
  c6_create_enter okGateway c6App rfl (by decide)

/-- C7: on MainMenu with "Delete a branch" selected, Enter reloads the
branch list from the gateway's porcelain listing; an empty result keeps the
MainMenu screen with the message "No branches with worktrees found", a
non-empty result enters DeleteBranch with the selection reset. -/
theorem c7_menu_delete_entry (g : Gateway) (app : App) (lines : List String)
    (hscr : app.screen = Screen.MainMenu) (hsel : app.main_menu.selected = 1)
    (hlist : g.listPorcelain = Except.ok lines) :
    ∃ app', handle_key_event g app KeyCode.enter = some (Except.ok (false, app')) ∧
      app'.branches = load_branches_parse (load_branches_root app) lines none ∧
      (app'.branches = [] → app'.screen = Screen.MainMenu ∧
        app'.message = some "No branches with worktrees found") ∧
      (app'.branches ≠ [] → app'.screen = Screen.DeleteBranch ∧
        app'.selected_branch = 0 ∧ app'.message = none) := by
  cases hbs : load_branches_parse (load_branches_root app) lines none with
  | nil =>
    refine ⟨{ app with
        branches := [],
        message := some "No branches with worktrees found" }, ?_, rfl, ?_, ?_⟩
    · simp [handle_key_event, hscr, handle_main_menu_key, hsel, load_branches, hlist, hbs]
    · intro _
      exact ⟨hscr, rfl⟩
    · intro h
      exact absurd rfl h
  | cons b bs =>
    refine ⟨{ app with
        branches := b :: bs,
        screen := Screen.DeleteBranch, selected_branch := 0, message := none }, ?_, rfl, ?_, ?_⟩
    · simp [handle_key_event, hscr, handle_main_menu_key, hsel, load_branches, hlist, hbs]
    · intro h
      exact absurd h (by simp)
    · intro _
      exact ⟨rfl, rfl, rfl⟩

/-- Witness for C7 on the empty-listing gateway: the screen stays MainMenu
with the no-branches message. -/
theorem c7_menu_delete_entry_witness :
    ∃ app', handle_key_event okGateway c7App KeyCode.enter = some (Except.ok (false, app')) ∧
      app'.branches = load_branches_parse (load_branches_root c7App) [] none ∧
      (app'.branches = [] → app'.screen = Screen.MainMenu ∧
        app'.message = some "No branches with worktrees found") ∧
      (app'.branches ≠ [] → app'.screen = Screen.DeleteBranch ∧
        app'.selected_branch = 0 ∧ app'.message = none) :=
  c7_menu_delete_entry okGateway c7App [] rfl rfl rfl

/-- Auxiliary induction for C4: over porcelain output whose `branch ` lines
all carry `refs/heads/` references, the parsing loop of `load_branches`
equals record extraction followed by the workspace-root filter, for every
pending-record state. -/
theorem load_branches_parse_eq_records (root : PathBuf) :
    ∀ (lines : List String) (cur : Option PathBuf),
    (∀ l ∈ lines, strStartsWith l "branch " = true → strStartsWith l "branch refs/heads/" = true) →
    load_branches_parse root lines cur =
      (porcelainRecords lines cur).filterMap
        (fun r => if r.1.startsWith root && strStartsWith r.2 "branch refs/heads/" then
            some (trimStartMatches r.2 "branch refs/heads/") else none) := by
  intro lines
  induction lines with
  | nil => intro cur _; rfl
  | cons line rest ih =>
    intro cur hwf
    have hrest : ∀ l ∈ rest, strStartsWith l "branch " = true →
        strStartsWith l "branch refs/heads/" = true :=
      fun l hl => hwf l (List.mem_cons_of_mem _ hl)
    by_cases hw : strStartsWith line "worktree " = true
    · simp only [load_branches_parse, porcelainRecords, hw, if_true]
      exact ih _ hrest
    · by_cases hb : strStartsWith line "branch " = true
      · have hh : strStartsWith line "branch refs/heads/" = true :=
          hwf line (List.mem_cons_self _ _) hb
        cases cur with
        | none =>
          simp only [load_branches_parse, porcelainRecords, hw, hb, if_false, if_true]
          exact ih none hrest
        | some wt =>
          by_cases hst : wt.startsWith root = true
          · simp [load_branches_parse, porcelainRecords, hw, hb, hh, hst,
              List.filterMap_cons, ih none hrest]
          · simp [load_branches_parse, porcelainRecords, hw, hb, hh, hst,
              List.filterMap_cons, ih none hrest]
      · simp only [load_branches_parse, porcelainRecords, hw, hb, if_false]
        exact ih cur hrest

/-- C4: parsing a porcelain worktree listing yields exactly the branch names
of the records that both end in a `branch refs/heads/` line and whose
worktree path lies under the workspace root, in first-encounter order;
records without a branch line (detached HEAD) contribute nothing, and a
record under a sibling of the workspace root is excluded by the
component-wise path-prefix test even though it has a branch line. -/
theorem c4_parse_characterization (root : PathBuf) (lines : List String)
    (hwf : ∀ l ∈ lines, strStartsWith l "branch " = true → strStartsWith l "branch refs/heads/" = true) :
    load_branches_parse root lines none =
      (porcelainRecords lines none).filterMap
        (fun r => if r.1.startsWith root && strStartsWith r.2 "branch refs/heads/" then
            some (trimStartMatches r.2 "branch refs/heads/") else none) :=
  load_branches_parse_eq_records root lines none hwf

/-- Witness for C4 on the four-record fixture (outside root, inside root,
detached, sibling of root): the hypothesis is discharged by evaluation. -/
theorem c4_parse_characterization_witness :
    (∀ l ∈ c4Lines, strStartsWith l "branch " = true → strStartsWith l "branch refs/heads/" = true) ∧
    load_branches_parse c4Root c4Lines none =
      (porcelainRecords c4Lines none).filterMap
        (fun r => if r.1.startsWith c4Root && strStartsWith r.2 "branch refs/heads/" then
            some (trimStartMatches r.2 "branch refs/heads/") else none) :=
  ⟨by decide, c4_parse_characterization c4Root c4Lines (by decide)⟩

/-- Extraction lemma for successful handler results. -/
theorem some_ok_inj {b1 b2 : Bool} {x y : App}
    (h : (some (Except.ok (b1, x)) : Option (Except String (Bool × App))) =
      some (Except.ok (b2, y))) : x = y := by
  simp only [Option.some.injEq, Except.ok.injEq, Prod.mk.injEq] at h
  exact h.2

/-- The delete-flow invariant holds vacuously away from the delete screens. -/
theorem deleteInv_of_not (x : App)
    (h1 : x.screen = Screen.MainMenu ∨ x.screen = Screen.CreateBranch) : DeleteInv x := by
  intro hor
  rcases h1 with h1 | h1 <;> rcases hor with h2 | h2 <;> rw [h1] at h2 <;> simp at h2

/-- One main-menu key event preserves the delete-flow invariant. -/
theorem inv_main {g : Gateway} {k : KeyCode} {b : Bool} {a a' : App}
    (hscr : a.screen = Screen.MainMenu)
    (h : handle_main_menu_key g a k = some (Except.ok (b, a'))) : DeleteInv a' := by
  cases k <;> simp only [handle_main_menu_key] at h
  case up =>
    rcases hm : a.main_menu.previous with _ | m <;> simp only [hm] at h
    · simp at h
    · have ha := some_ok_inj h
      subst ha
      exact deleteInv_of_not _ (Or.inl hscr)
  case down =>
    rcases hm : a.main_menu.next with _ | m <;> simp only [hm] at h
    · simp at h
    · have ha := some_ok_inj h
      subst ha
      exact deleteInv_of_not _ (Or.inl hscr)
  case char c =>
    by_cases hk : c = 'k'
    · rw [if_pos hk] at h
      rcases hm : a.main_menu.previous with _ | m <;> simp only [hm] at h
      · simp at h
      · have ha := some_ok_inj h
        subst ha
        exact deleteInv_of_not _ (Or.inl hscr)
    · rw [if_neg hk] at h
      by_cases hj : c = 'j'
      · rw [if_pos hj] at h
        rcases hm : a.main_menu.next with _ | m <;> simp only [hm] at h
        · simp at h
        · have ha := some_ok_inj h
          subst ha
          exact deleteInv_of_not _ (Or.inl hscr)
      · rw [if_neg hj] at h
        have ha := some_ok_inj h
        subst ha
        exact deleteInv_of_not _ (Or.inl hscr)
  case enter =>
    rcases hsel : a.main_menu.selected with _ | _ | _ | n <;> simp only [hsel] at h
    · have ha := some_ok_inj h
      subst ha
      exact deleteInv_of_not _ (Or.inr rfl)
    · rcases hl : g.listPorcelain with e | lines <;>
        simp only [load_branches, hl] at h
      · simp at h
      · split at h
        · have ha := some_ok_inj h
          subst ha
          exact deleteInv_of_not _ (Or.inl hscr)
        · rename_i hE
          have ha := some_ok_inj h
          subst ha
          have hne : load_branches_parse (load_branches_root a) lines none ≠ [] :=
            fun heq => hE (by rw [heq]; rfl)
          exact fun _ => ⟨hne, List.length_pos.mpr hne⟩
    · have ha := some_ok_inj h
      subst ha
      exact deleteInv_of_not _ (Or.inl hscr)
    · have ha := some_ok_inj h
      subst ha
      exact deleteInv_of_not _ (Or.inl hscr)
  all_goals
    (have ha := some_ok_inj h
     subst ha
     exact deleteInv_of_not _ (Or.inl hscr))

/-- One create-branch key event preserves the delete-flow invariant. -/
theorem inv_create {g : Gateway} {k : KeyCode} {b : Bool} {a a' : App}
    (hscr : a.screen = Screen.CreateBranch)
    (h : handle_create_branch_key g a k = some (Except.ok (b, a'))) : DeleteInv a' := by
  cases k <;> simp only [handle_create_branch_key] at h
  case esc =>
    have ha := some_ok_inj h
    subst ha
    exact deleteInv_of_not _ (Or.inl rfl)
  case enter =>
    split at h
    · have ha := some_ok_inj h
      subst ha
      exact deleteInv_of_not _ (Or.inr hscr)
    · rcases hc : create_worktree g a with e0 | u <;> simp only [hc] at h <;>
        (have ha := some_ok_inj h
         subst ha
         exact deleteInv_of_not _ (Or.inr hscr))
  case char c =>
    rcases hi : InputBuffer.insert ⟨a.input, a.cursor_position⟩ c with _ | bb <;>
      simp only [hi] at h
    · simp at h
    · have ha := some_ok_inj h
      subst ha
      exact deleteInv_of_not _ (Or.inr hscr)
  case backspace =>
    rcases hi : InputBuffer.backspace ⟨a.input, a.cursor_position⟩ with _ | bb <;>
      simp only [hi] at h
    · simp at h
    · have ha := some_ok_inj h
      subst ha
      exact deleteInv_of_not _ (Or.inr hscr)
  case delete =>
    rcases hi : InputBuffer.delete_forward ⟨a.input, a.cursor_position⟩ with _ | bb <;>
      simp only [hi] at h
    · simp at h
    · have ha := some_ok_inj h
      subst ha
      exact deleteInv_of_not _ (Or.inr hscr)
  all_goals
    (have ha := some_ok_inj h
     subst ha
     exact deleteInv_of_not _ (Or.inr hscr))

/-- One delete-branch key event preserves the delete-flow invariant. -/
theorem inv_delete {g : Gateway} {k : KeyCode} {b : Bool} {a a' : App}
    (hscr : a.screen = Screen.DeleteBranch) (hinv : DeleteInv a)
    (h : handle_delete_branch_key g a k = some (Except.ok (b, a'))) : DeleteInv a' := by
  obtain ⟨hne, hlt⟩ := hinv (Or.inl hscr)
  cases k <;> simp only [handle_delete_branch_key] at h
  case esc =>
    have ha := some_ok_inj h
    subst ha
    exact deleteInv_of_not _ (Or.inl rfl)
  case up =>
    split at h
    · have ha := some_ok_inj h
      subst ha
      exact fun _ => ⟨hne, Nat.lt_of_le_of_lt (Nat.sub_le _ _) hlt⟩
    · rcases hlen : a.branches.length with _ | n
      · exact absurd (List.length_eq_zero.mp hlen) hne
      · simp only [hlen] at h
        have ha := some_ok_inj h
        subst ha
        refine fun _ => ⟨hne, ?_⟩
        rw [hlen]
        exact Nat.lt_succ_self n
  case down =>
    rcases hlen : a.branches.length with _ | n
    · exact absurd (List.length_eq_zero.mp hlen) hne
    · simp only [hlen] at h
      have ha := some_ok_inj h
      subst ha
      refine fun _ => ⟨hne, ?_⟩
      rw [hlen]
      exact Nat.mod_lt _ (Nat.succ_pos n)
  case char c =>
    by_cases hk : c = 'k'
    · rw [if_pos hk] at h
      split at h
      · have ha := some_ok_inj h
        subst ha
        exact fun _ => ⟨hne, Nat.lt_of_le_of_lt (Nat.sub_le _ _) hlt⟩
      · rcases hlen : a.branches.length with _ | n
        · exact absurd (List.length_eq_zero.mp hlen) hne
        · simp only [hlen] at h
          have ha := some_ok_inj h
          subst ha
          refine fun _ => ⟨hne, ?_⟩
          rw [hlen]
          exact Nat.lt_succ_self n
    · rw [if_neg hk] at h
      by_cases hj : c = 'j'
      · rw [if_pos hj] at h
        rcases hlen : a.branches.length with _ | n
        · exact absurd (List.length_eq_zero.mp hlen) hne
        · simp only [hlen] at h
          have ha := some_ok_inj h
          subst ha
          refine fun _ => ⟨hne, ?_⟩
          rw [hlen]
          exact Nat.mod_lt _ (Nat.succ_pos n)
      · rw [if_neg hj] at h
        have ha := some_ok_inj h
        subst ha
        exact fun _ => ⟨hne, hlt⟩
  case enter =>
    rcases hget : a.branches[a.selected_branch]? with _ | name <;> simp only [hget] at h
    · simp at h
    · rcases hs : is_branch_in_sync g.repo name with e | bb <;> simp only [hs] at h
      · simp at h
      · have ha := some_ok_inj h
        subst ha
        exact fun _ => ⟨hne, hlt⟩
  all_goals
    (have ha := some_ok_inj h
     subst ha
     exact fun _ => ⟨hne, hlt⟩)

/-- One confirm-delete key event preserves the delete-flow invariant. -/
theorem inv_confirm {g : Gateway} {k : KeyCode} {b : Bool} {a a' : App}
    (hscr : a.screen = Screen.ConfirmDelete) (hinv : DeleteInv a)
    (h : handle_confirm_delete_key g a k = some (Except.ok (b, a'))) : DeleteInv a' := by
  obtain ⟨hne, hlt⟩ := hinv (Or.inr hscr)
  cases k <;> simp only [handle_confirm_delete_key] at h
  case esc =>
    have ha := some_ok_inj h
    subst ha
    exact fun _ => ⟨hne, hlt⟩
  case char c =>
    by_cases hy : c = 'y' ∨ c = 'Y'
    · rw [if_pos hy] at h
      rcases hget : a.branches[a.selected_branch]? with _ | name <;> simp only [hget] at h
      · simp at h
      · rcases hdel : delete_worktree g a name with e0 | u <;> simp only [hdel] at h <;>
          (have ha := some_ok_inj h
           subst ha
           exact deleteInv_of_not _ (Or.inl rfl))
    · rw [if_neg hy] at h
      split at h <;>
        (have ha := some_ok_inj h
         subst ha
         exact fun _ => ⟨hne, hlt⟩)
  all_goals
    (have ha := some_ok_inj h
     subst ha
     exact fun _ => ⟨hne, hlt⟩)

/-- One dispatched key event preserves the delete-flow invariant. -/
theorem inv_step {g : Gateway} {k : KeyCode} {b : Bool} {a a' : App}
    (hinv : DeleteInv a)
    (h : handle_key_event g a k = some (Except.ok (b, a'))) : DeleteInv a' := by
  cases hscr : a.screen
  case MainMenu =>
    simp only [handle_key_event, hscr] at h
    exact inv_main hscr h
  case CreateBranch =>
    simp only [handle_key_event, hscr] at h
    exact inv_create hscr h
  case DeleteBranch =>
    simp only [handle_key_event, hscr] at h
    exact inv_delete hscr hinv h
  case ConfirmDelete =>
    simp only [handle_key_event, hscr] at h
    exact inv_confirm hscr hinv h

/-- C10: in every state reachable from the initial application state by the
event-handling step relation, an active DeleteBranch or ConfirmDelete screen
comes with a non-empty branch list and an in-bounds selection, so the
`branches[selected_branch]` indexing of the DeleteBranch Enter handler, the
ConfirmDelete confirmation handler, and the ConfirmDelete render never goes
out of bounds. -/
theorem c10_delete_screens_in_bounds (root : PathBuf) (cfg : GitsyConfig) (a : App)
    (hr : Reachable root cfg a)
    (hs : a.screen = Screen.DeleteBranch ∨ a.screen = Screen.ConfirmDelete) :
    a.branches ≠ [] ∧ a.selected_branch < a.branches.length := by
  have hinv : DeleteInv a := by
    clear hs
    induction hr with
    | init => exact deleteInv_of_not _ (Or.inl rfl)
    | step g k hprev heq ih => exact inv_step ih heq
  exact hinv hs

/-- Witness for C10: from the initial state, Down then Enter (against a
gateway listing one workspace worktree) reaches the DeleteBranch screen with
the branch list ["feat"] and the selection in bounds. -/
theorem c10_delete_screens_in_bounds_witness :
    c10A2.branches ≠ [] ∧ c10A2.selected_branch < c10A2.branches.length := by
  have h1 : handle_key_event c10Gate (App.new c10Root c10Cfg) KeyCode.down =
      some (Except.ok (false, c10A1)) := rfl
  have h2 : handle_key_event c10Gate c10A1 KeyCode.enter =
      some (Except.ok (false, c10A2)) := rfl
  exact c10_delete_screens_in_bounds c10Root c10Cfg c10A2
    (Reachable.step c10Gate KeyCode.enter
      (Reachable.step c10Gate KeyCode.down Reachable.init h1) h2)
    (Or.inl rfl)
